import Mathlib

/-!
# Minerva — verification of the spec against the source

Shallow embedding of the core routines of the Minerva repository
(memory quality gate, document chunking, embedding service, document
search, intelligent router, knowledge agent, fact extraction)
together with proofs settling the frozen claims.

Strings are modelled as `List Char` (Python code points).  Python
`int` indices are modelled as `Int`, Python floats as `ℚ` (they only
appear as literals and opaque collaborator outputs, never in float
arithmetic).  External collaborators (Ollama, Qdrant, mem0's backend,
the fastembed model) are parameters of the embedded functions; a call
that may raise is modelled as an `Except`-valued parameter.
-/

namespace Minerva

/-! ## Python string primitives -/

/-- The whitespace characters stripped by Python's `str.strip()`
(ASCII range; the model covers the character set used by the repo). -/
def isPySpace (c : Char) : Bool :=
  c = ' ' ∨ c = '\t' ∨ c = '\n' ∨ c = '\r' ∨ c = '\x0b' ∨ c = '\x0c'

/-- Python `str.strip()`. -/
def pyStrip (l : List Char) : List Char :=
  ((l.dropWhile isPySpace).reverse.dropWhile isPySpace).reverse

/-- Charwise model of Python `str.lower()` covering ASCII letters and the
Spanish accented letters that occur in the repository's literals. -/
def pyLowerChar (c : Char) : Char :=
  if 'A' ≤ c ∧ c ≤ 'Z' then Char.ofNat (c.toNat + 32)
  else if c = 'Á' then 'á'
  else if c = 'É' then 'é'
  else if c = 'Í' then 'í'
  else if c = 'Ó' then 'ó'
  else if c = 'Ú' then 'ú'
  else if c = 'Ñ' then 'ñ'
  else if c = 'Ü' then 'ü'
  else c

/-- Python `str.lower()`, applied charwise. -/
def pyLower (l : List Char) : List Char := l.map pyLowerChar

/-- Python's substring containment `needle in hay`. -/
def pyIn (needle hay : List Char) : Bool :=
  (List.range (hay.length + 1)).any (fun i => needle.isPrefixOf (hay.drop i))

/-- Python `str.startswith(prefix)`. -/
def pyStartsWith (l p : List Char) : Bool := p.isPrefixOf l

/-- Normalisation of a Python slice index: negative indices count from the
end, and indices are clamped to `[0, n]`. -/
def pyIdx (n : Nat) (i : Int) : Nat :=
  if i < 0 then ((n : Int) + i).toNat else min i.toNat n

/-- Python slicing `l[i:j]` (step 1). -/
def pySlice (l : List Char) (i j : Int) : List Char :=
  (l.drop (pyIdx l.length i)).take (pyIdx l.length j - pyIdx l.length i)

/-- Python `str.rfind(c)` for a single-character needle: highest index of
`c`, or `-1` when absent. -/
def rfindChar : List Char → Char → Int
  | [], _ => -1
  | x :: xs, c =>
    let r := rfindChar xs c
    if r ≥ 0 then r + 1 else if x = c then 0 else -1

/-! ## `Mem0Wrapper._validate_memory_quality` (src/memory/mem0_wrapper.py) -/

/-- The generic courtesy phrases filtered by the quality gate. -/
def genericPhrases : List (List Char) :=
  [ "el usuario es amable".data,
    "el usuario es cordial".data,
    "el usuario pregunta".data,
    "el usuario saluda".data,
    "el usuario dice hola".data,
    "el usuario está bien".data,
    "el usuario responde".data,
    "el usuario tiene buena actitud".data ]

/-- The normalisation `memory_text.lower().strip()` performed at the top of
`_validate_memory_quality`. -/
def normalizeMemory (memoryText : List Char) : List Char :=
  pyStrip (pyLower memoryText)

/-- The `has_specifics = any([...])` check of `_validate_memory_quality`:
at least one concrete-information marker must occur. -/
def hasSpecificInfo (text : List Char) : Bool :=
  pyIn "se llama".data text || pyIn "vive en".data text ||
  pyIn "trabaja".data text || pyIn "estudia".data text ||
  pyIn "favorito".data text || pyIn "prefiere".data text ||
  pyIn "es de".data text || pyIn "nació".data text ||
  (pyIn "tiene".data text &&
    (pyIn "años".data text || pyIn "hijo".data text ||
     pyIn "proyecto".data text)) ||
  pyIn "proyecto".data text || pyIn "familia".data text ||
  pyIn "profesión".data text || pyIn "hobby".data text ||
  (pyIn "lenguaje".data text && pyIn "programación".data text)

/-- `Mem0Wrapper._validate_memory_quality`: quality gate on extracted
memories.  Normalises (`lower().strip()`), then rejects short texts,
generic courtesy phrases, questions, and texts without a concrete
information marker. -/
def validateMemoryQuality (memoryText : List Char) : Bool :=
  if (normalizeMemory memoryText).length < 10 then false
  else if genericPhrases.any (fun p => pyIn p (normalizeMemory memoryText)) then
    false
  else if pyIn "?".data (normalizeMemory memoryText) ||
          pyStartsWith (normalizeMemory memoryText) "qué".data ||
          pyStartsWith (normalizeMemory memoryText) "cómo".data then false
  else if !hasSpecificInfo (normalizeMemory memoryText) then false
  else true

/-! ## `Mem0Wrapper.add_message` (src/memory/mem0_wrapper.py)

`self.memory.add` is mem0's backend: it extracts memories from the message
with its own LLM (opaque here, the parameter `ext`), persists every one of
them in the backend store and returns them in the `results` field of its
return value. -/

/-- Model of the external `mem0.Memory.add` call: persists all extracted
memories and returns them. -/
def mem0Add (ext : List Char → List (List Char)) (store : List (List Char))
    (message : List Char) : List (List Char) × List (List Char) :=
  (store ++ ext message, ext message)

/-- `Mem0Wrapper.add_message`: adds a message via `self.memory.add` (which
persists the extracted memories), then runs the validation loop over the
returned `results`.  The loop only computes `valid_count` for logging — it
neither removes invalid memories from the store nor prevents their
persistence.  Returns (new store, mem0 result list, valid count). -/
def addMessage (ext : List Char → List (List Char)) (store : List (List Char))
    (message : List Char) :
    List (List Char) × List (List Char) × Nat :=
  let res := mem0Add ext store message
  let validCount := (res.2.filter (fun m => validateMemoryQuality m)).length
  (res.1, res.2, validCount)

/-! Basic facts about the primitives. -/

theorem pyLower_length (l : List Char) : (pyLower l).length = l.length :=
  List.length_map l pyLowerChar

theorem pyStrip_length_le (l : List Char) : (pyStrip l).length ≤ l.length := by
  unfold pyStrip
  calc ((l.dropWhile isPySpace).reverse.dropWhile isPySpace).reverse.length
      = ((l.dropWhile isPySpace).reverse.dropWhile isPySpace).length := by
        exact List.length_reverse _
    _ ≤ (l.dropWhile isPySpace).reverse.length :=
        (List.dropWhile_sublist _).length_le
    _ = (l.dropWhile isPySpace).length := List.length_reverse _
    _ ≤ l.length := (List.dropWhile_sublist _).length_le

theorem mem_of_mem_dropWhile {p : Char → Bool} {l : List Char} {c : Char}
    (h : c ∈ l.dropWhile p) : c ∈ l := by
  induction l with
  | nil => simp at h
  | cons x xs ih =>
    by_cases hx : p x
    · simp only [List.dropWhile_cons, hx] at h
      exact List.mem_cons_of_mem _ (ih h)
    · simp only [List.dropWhile_cons, hx] at h
      exact h

theorem mem_of_mem_pyStrip {l : List Char} {c : Char} (h : c ∈ pyStrip l) :
    c ∈ l := by
  unfold pyStrip at h
  rw [List.mem_reverse] at h
  have h2 := mem_of_mem_dropWhile h
  rw [List.mem_reverse] at h2
  exact mem_of_mem_dropWhile h2

theorem mem_pyStrip_of_not_space {l : List Char} {c : Char}
    (hc : ¬ isPySpace c = true) (h : c ∈ l) : c ∈ pyStrip l := by
  unfold pyStrip
  rw [List.mem_reverse]
  have step : ∀ (m : List Char), c ∈ m → c ∈ m.dropWhile isPySpace := by
    intro m hm
    induction m with
    | nil => simp at hm
    | cons x xs ih =>
      by_cases hx : isPySpace x
      · simp only [List.dropWhile_cons, hx, if_true]
        rcases List.mem_cons.mp hm with h1 | h1
        · exact absurd (h1 ▸ hx) hc
        · exact ih h1
      · simpa only [List.dropWhile_cons, hx, if_false] using hm
  have h1 : c ∈ (l.dropWhile isPySpace).reverse := by
    rw [List.mem_reverse]; exact step _ h
  exact step _ h1

theorem mem_pyLower_of_fixed {l : List Char} {c : Char}
    (hfix : pyLowerChar c = c) (h : c ∈ l) : c ∈ pyLower l := by
  unfold pyLower
  exact List.mem_map.mpr ⟨c, h, hfix⟩

theorem pyIn_singleton_of_mem {c : Char} {hay : List Char} (h : c ∈ hay) :
    pyIn [c] hay = true := by
  obtain ⟨⟨i, hi⟩, hget⟩ := List.mem_iff_get.mp h
  unfold pyIn
  rw [List.any_eq_true]
  refine ⟨i, List.mem_range.mpr (by omega), ?_⟩
  have hdrop : hay.drop i = c :: hay.drop (i + 1) := by
    rw [List.drop_eq_getElem_cons hi]
    simp only [List.get_eq_getElem] at hget
    rw [hget]
  rw [hdrop]
  simp [List.isPrefixOf]

/-- **C7** — The fact quality-validation predicate returns `false` for every
candidate shorter than 10 characters, for every candidate matching the
question pattern (a `?` anywhere, or the normalised text starting with
"qué"/"cómo"), and for every candidate containing a generic-courtesy
template; and it returns `true` for the known-good example
"El usuario vive en Madrid". -/
theorem c7_fact_quality_gate (s : List Char) :
    (s.length < 10 → validateMemoryQuality s = false) ∧
    ('?' ∈ s → validateMemoryQuality s = false) ∧
    (pyStartsWith (normalizeMemory s) "qué".data = true ∨
       pyStartsWith (normalizeMemory s) "cómo".data = true →
       validateMemoryQuality s = false) ∧
    ((∃ p ∈ genericPhrases, pyIn p (normalizeMemory s) = true) →
       validateMemoryQuality s = false) ∧
    validateMemoryQuality "El usuario vive en Madrid".data = true := by
  refine ⟨?_, ?_, ?_, ?_, by decide⟩
  · intro h
    have hlen : (normalizeMemory s).length < 10 := by
      have h1 : (normalizeMemory s).length ≤ (pyLower s).length :=
        pyStrip_length_le _
      rw [pyLower_length] at h1
      omega
    simp [validateMemoryQuality, hlen]
  · intro h
    have h1 : '?' ∈ pyLower s :=
      mem_pyLower_of_fixed (by decide) h
    have h2 : '?' ∈ normalizeMemory s :=
      mem_pyStrip_of_not_space (by decide) h1
    have h3 : pyIn "?".data (normalizeMemory s) = true :=
      pyIn_singleton_of_mem h2
    by_cases hlen : (normalizeMemory s).length < 10
    · simp [validateMemoryQuality, hlen]
    · by_cases hgen : genericPhrases.any (fun p => pyIn p (normalizeMemory s))
      · simp [validateMemoryQuality, hlen, hgen]
      · simp [validateMemoryQuality, hlen, hgen, h3]
  · intro h
    by_cases hlen : (normalizeMemory s).length < 10
    · simp [validateMemoryQuality, hlen]
    · by_cases hgen : genericPhrases.any (fun p => pyIn p (normalizeMemory s))
      · simp [validateMemoryQuality, hlen, hgen]
      · rcases h with h | h <;> simp [validateMemoryQuality, hlen, hgen, h]
  · intro ⟨p, hp, hin⟩
    have hgen : genericPhrases.any (fun q => pyIn q (normalizeMemory s)) = true := by
      rw [List.any_eq_true]
      exact ⟨p, hp, hin⟩
    by_cases hlen : (normalizeMemory s).length < 10
    · simp [validateMemoryQuality, hlen]
    · simp [validateMemoryQuality, hlen, hgen]

/-- Witness for C7: the theorem applied at concrete candidates. -/
theorem c7_fact_quality_gate_witness :
    validateMemoryQuality "corto".data = false ∧
    validateMemoryQuality "El usuario preguntó: ¿vives en Madrid?".data = false ∧
    validateMemoryQuality "qué lenguaje de programación usa".data = false ∧
    validateMemoryQuality "el usuario saluda cordialmente cada mañana".data = false ∧
    validateMemoryQuality "El usuario vive en Madrid".data = true :=
  ⟨(c7_fact_quality_gate "corto".data).1 (by decide),
   (c7_fact_quality_gate _).2.1 (by decide),
   (c7_fact_quality_gate "qué lenguaje de programación usa".data).2.2.1
     (Or.inl (by decide)),
   (c7_fact_quality_gate _).2.2.2.1
     ⟨"el usuario saluda".data, by decide, by decide⟩,
   (c7_fact_quality_gate []).2.2.2.2⟩

/-- **C1** — The claim says a candidate failing `_validate_memory_quality`
is never persisted.  In the code, `Mem0Wrapper.add_message` first calls
`self.memory.add` — which persists every extracted memory — and only then
runs the validation loop, which merely counts valid memories for logging
(despite logging "Memoria de baja calidad filtrada").  Evaluated at a
backend extraction producing the invalid candidate "el usuario saluda",
the candidate fails the predicate yet remains in the store. -/
theorem c1_invalid_memory_persisted :
    validateMemoryQuality "el usuario saluda".data = false ∧
    "el usuario saluda".data ∈
      (addMessage (fun _ => ["el usuario saluda".data]) [] "hola".data).1 := by
  constructor
  · decide
  · simp [addMessage, mem0Add]

/-! ## `DocumentProcessor._create_chunks` (src/processing/document_processor.py) -/

/-- A processed document fragment (`DocumentChunk` dataclass); the
`char_start`, `char_end` and `length` fields are the entries of the chunk's
`metadata` dict. -/
structure DocumentChunk where
  text : List Char
  chunk_index : Nat
  source_file : String
  char_start : Int
  char_end : Int
  length : Nat
  deriving Repr, DecidableEq

/-- The per-iteration computation of the chunk's `end` in
`_create_chunks`: `end = start + chunk_size`, then, when this is not the
last chunk, move `end` back to just after the last space or period in the
trailing 50-character window `text[end-50:end]`, if any. -/
def nextEnd (chunkSize : Nat) (text : List Char) (start : Int) : Int :=
  let e : Int := start + chunkSize
  if e < (text.length : Int) then
    let cutWindow := pySlice text (e - 50) e
    let lastSpace := rfindChar cutWindow ' '
    let lastPeriod := rfindChar cutWindow '.'
    let cutPos := max lastSpace lastPeriod
    if cutPos ≠ -1 then e - 50 + cutPos + 1 else e
  else e

/-- The `while start < len(text)` loop of `_create_chunks`.  The loop body
extracts `text[start:end].strip()`, appends a chunk when the stripped text
is non-empty (only then advancing `chunk_index`), and sets
`start = end - chunk_overlap`.  `fuel` bounds the number of iterations;
each evaluation below exits the loop before exhausting it, so the model
agrees with the Python loop. -/
def createChunksAux (chunkSize chunkOverlap : Nat) (text : List Char)
    (sourceFile : String) : Nat → Int → Nat → List DocumentChunk
  | 0, _, _ => []
  | fuel + 1, start, chunkIndex =>
    if start < (text.length : Int) then
      let e := nextEnd chunkSize text start
      let chunkText := pyStrip (pySlice text start e)
      if chunkText ≠ [] then
        { text := chunkText, chunk_index := chunkIndex,
          source_file := sourceFile, char_start := start, char_end := e,
          length := chunkText.length } ::
          createChunksAux chunkSize chunkOverlap text sourceFile fuel
            (e - chunkOverlap) (chunkIndex + 1)
      else
        createChunksAux chunkSize chunkOverlap text sourceFile fuel
          (e - chunkOverlap) chunkIndex
    else []

/-- `DocumentProcessor._create_chunks`. -/
def createChunks (chunkSize chunkOverlap : Nat) (text : List Char)
    (sourceFile : String) : List DocumentChunk :=
  createChunksAux chunkSize chunkOverlap text sourceFile (text.length + 1) 0 0

/-- The sequence of `(start, end)` spans visited by the `_create_chunks`
loop (for analysis: `createChunksAux` emits, for each span, the stripped
slice when non-empty). -/
def chunkBoundsAux (chunkSize chunkOverlap : Nat) (text : List Char) :
    Nat → Int → List (Int × Int)
  | 0, _ => []
  | fuel + 1, start =>
    if start < (text.length : Int) then
      (start, nextEnd chunkSize text start) ::
        chunkBoundsAux chunkSize chunkOverlap text fuel
          (nextEnd chunkSize text start - chunkOverlap)
    else []

theorem rfindChar_ge_neg_one (l : List Char) (c : Char) :
    -1 ≤ rfindChar l c := by
  induction l with
  | nil => simp [rfindChar]
  | cons x xs ih =>
    simp only [rfindChar]
    by_cases h : rfindChar xs c ≥ 0
    · simp only [h, if_pos]; omega
    · simp only [h, if_neg, if_false]
      by_cases hx : x = c <;> simp [hx]

theorem rfindChar_lt_length (l : List Char) (c : Char) :
    rfindChar l c < (l.length : Int) := by
  induction l with
  | nil => simp [rfindChar]
  | cons x xs ih =>
    simp only [rfindChar, List.length_cons]
    by_cases h : rfindChar xs c ≥ 0
    · rw [if_pos h]; push_cast; omega
    · rw [if_neg h]
      by_cases hx : x = c
      · rw [if_pos hx]; push_cast; omega
      · rw [if_neg hx]; push_cast; omega

theorem rfindChar_eq_neg_one_of_not_mem {l : List Char} {c : Char}
    (h : c ∉ l) : rfindChar l c = -1 := by
  induction l with
  | nil => simp [rfindChar]
  | cons x xs ih =>
    simp only [List.mem_cons, not_or] at h
    have h1 : rfindChar xs c = -1 := ih h.2
    simp [rfindChar, h1, Ne.symm, h.1]

theorem pyIdx_of_nonneg (n : Nat) {i : Int} (h : 0 ≤ i) :
    pyIdx n i = min i.toNat n := by
  simp [pyIdx, not_lt.mpr h]

theorem drop_min_length (l : List Char) (a : Nat) :
    l.drop (min a l.length) = l.drop a := by
  rcases le_total a l.length with h | h
  · rw [min_eq_left h]
  · rw [min_eq_right h, List.drop_length, List.drop_eq_nil_of_le h]

theorem take_sub_min (l : List Char) (a b : Nat) :
    (l.drop a).take (min b l.length - min a l.length) =
      (l.drop a).take (b - a) := by
  rcases le_total a l.length with ha | ha
  · rcases le_total b l.length with hb | hb
    · rw [min_eq_left ha, min_eq_left hb]
    · rw [min_eq_left ha, min_eq_right hb]
      have hlen : (l.drop a).length = l.length - a := List.length_drop a l
      rw [List.take_of_length_le (by omega), List.take_of_length_le (by omega)]
  · have hb : l.length ≤ b ∨ b ≤ a := by omega
    have hdrop : l.drop a = [] := List.drop_eq_nil_of_le ha
    rw [hdrop]; simp

theorem pySlice_eq_drop_take (l : List Char) {i j : Int}
    (hi : 0 ≤ i) (hj : 0 ≤ j) :
    pySlice l i j = (l.drop i.toNat).take (j.toNat - i.toNat) := by
  unfold pySlice
  rw [pyIdx_of_nonneg _ hi, pyIdx_of_nonneg _ hj, drop_min_length,
    take_sub_min]

theorem pySlice_length_le (l : List Char) {i j : Int}
    (hi : 0 ≤ i) (hij : i ≤ j) :
    ((pySlice l i j).length : Int) ≤ j - i := by
  have hj : 0 ≤ j := le_trans hi hij
  rw [pySlice_eq_drop_take l hi hj]
  have h1 : ((l.drop i.toNat).take (j.toNat - i.toNat)).length ≤
      j.toNat - i.toNat := List.length_take_le _ _
  omega

/-- Bounds on the adjusted chunk end: the boundary search moves `end` back
by at most 49 characters. -/
theorem nextEnd_bounds (chunkSize : Nat) (text : List Char) {start : Int}
    (h0 : 0 ≤ start) (hcs : 50 ≤ chunkSize) :
    start + chunkSize - 49 ≤ nextEnd chunkSize text start ∧
      nextEnd chunkSize text start ≤ start + chunkSize := by
  simp only [nextEnd]
  by_cases hlt : start + (chunkSize : Int) < (text.length : Int)
  · rw [if_pos hlt]
    set w := pySlice text (start + (chunkSize : Int) - 50)
      (start + (chunkSize : Int)) with hw
    set cutPos := max (rfindChar w ' ') (rfindChar w '.') with hcp
    have hge : -1 ≤ cutPos := le_max_of_le_left (rfindChar_ge_neg_one _ _)
    have hwlen : ((w.length : Int)) ≤ 50 := by
      have h2 := pySlice_length_le text
        (i := start + (chunkSize : Int) - 50) (j := start + (chunkSize : Int))
        (by omega) (by omega)
      rw [← hw] at h2
      omega
    have hlt1 : cutPos < 50 := by
      have h1 := rfindChar_lt_length w ' '
      have h2 := rfindChar_lt_length w '.'
      have h3 : cutPos < (w.length : Int) := max_lt h1 h2
      omega
    by_cases hne : cutPos = -1
    · rw [if_neg (not_not_intro hne)]
      omega
    · rw [if_pos hne]
      omega
  · rw [if_neg hlt]
    omega

theorem slice_append_drop (l : List Char) {a b : Nat} (h : a ≤ b) :
    (l.drop a).take (b - a) ++ l.drop b = l.drop a := by
  have h1 : l.drop b = (l.drop a).drop (b - a) := by
    rw [List.drop_drop]; congr 1; omega
  rw [h1, List.take_append_drop]

/-- The spans of `_create_chunks` starting from `start = 0`. -/
def chunkBounds (chunkSize chunkOverlap : Nat) (text : List Char) :
    List (Int × Int) :=
  chunkBoundsAux chunkSize chunkOverlap text (text.length + 1) 0

/-- Concatenation of the spans' slices accounting for the overlap: the
first span contributes its full slice, every later span contributes its
slice with the first `overlap` characters (the region shared with the
previous span) removed. -/
def concatWithOverlap (chunkOverlap : Nat) (text : List Char) :
    List (Int × Int) → List Char
  | [] => []
  | b :: rest =>
    pySlice text b.1 b.2 ++
      (rest.map (fun p => pySlice text (p.1 + chunkOverlap) p.2)).flatten

/-- Gluing lemma: over the spans visited from any loop position, the
overlap-trimmed slices concatenate to the tail of the text (each span
starts exactly `overlap` characters before the previous span's end). -/
theorem chunkBoundsAux_glue (chunkSize chunkOverlap : Nat) (text : List Char)
    (hco : chunkOverlap + 50 ≤ chunkSize) :
    ∀ (fuel : Nat) (start : Int), 0 ≤ start →
      (text.length : Int) ≤ start + fuel →
      ((chunkBoundsAux chunkSize chunkOverlap text fuel start).map
          (fun p => pySlice text (p.1 + chunkOverlap) p.2)).flatten =
        text.drop (start + chunkOverlap).toNat := by
  intro fuel
  induction fuel with
  | zero =>
    intro start h0 hle
    simp only [chunkBoundsAux, List.map_nil, List.flatten_nil]
    symm
    refine List.drop_eq_nil_of_le ?_
    simp only [Nat.cast_zero, add_zero] at hle
    omega
  | succ fuel ih =>
    intro start h0 hle
    push_cast at hle
    by_cases hlt : start < (text.length : Int)
    · rw [chunkBoundsAux, if_pos hlt]
      simp only [List.map_cons, List.flatten_cons]
      have hb := nextEnd_bounds chunkSize text h0 (by omega)
      set e := nextEnd chunkSize text start with he
      have h1 : start + chunkOverlap + 1 ≤ e := by omega
      rw [ih (e - chunkOverlap) (by omega) (by omega)]
      have h2 : e - (chunkOverlap : Int) + chunkOverlap = e := by ring
      rw [h2]
      rw [pySlice_eq_drop_take text (i := start + chunkOverlap) (by omega)
        (by omega)]
      exact slice_append_drop text (by omega)
    · rw [chunkBoundsAux, if_neg hlt]
      simp only [List.map_nil, List.flatten_nil]
      symm
      exact List.drop_eq_nil_of_le (by omega)

/-- Every chunk emitted by the `_create_chunks` loop carries the stripped
slice `text[char_start:char_end].strip()` as its text. -/
theorem createChunksAux_text (chunkSize chunkOverlap : Nat)
    (text : List Char) (sourceFile : String) :
    ∀ (fuel : Nat) (start : Int) (idx : Nat),
      ∀ c ∈ createChunksAux chunkSize chunkOverlap text sourceFile
          fuel start idx,
        c.text = pyStrip (pySlice text c.char_start c.char_end) := by
  intro fuel
  induction fuel with
  | zero =>
    intro start idx c hc
    simp [createChunksAux] at hc
  | succ fuel ih =>
    intro start idx c hc
    rw [createChunksAux] at hc
    by_cases hlt : start < (text.length : Int)
    · rw [if_pos hlt] at hc
      by_cases hne :
          pyStrip (pySlice text start (nextEnd chunkSize text start)) ≠ []
      · rw [if_pos hne] at hc
        rcases List.mem_cons.mp hc with h | h
        · subst h; rfl
        · exact ih _ _ c h
      · rw [if_neg hne] at hc
        exact ih _ _ c hc
    · rw [if_neg hlt] at hc
      simp at hc

/-- **C2 (amended)** — `_create_chunks` is a pure function of
`(text, chunk_size, overlap)` (determinism is immediate), and, whenever
`overlap + 50 ≤ chunk_size` (so the 50-character boundary search cannot
reach back past the overlap; the defaults are 500/50), the visited spans
tile the text: concatenating the spans' raw slices, dropping the
`overlap`-character prefix of every span after the first, reconstructs the
original text exactly.  Each produced chunk's text is the
whitespace-*stripped* slice `text[char_start:char_end].strip()` — which is
why reconstruction from the chunk *texts* (the original claim) can lose
whitespace at span boundaries. -/
theorem c2_chunking_reconstruction (chunkSize chunkOverlap : Nat)
    (text : List Char) (sourceFile : String)
    (hco : chunkOverlap + 50 ≤ chunkSize) :
    concatWithOverlap chunkOverlap text
        (chunkBounds chunkSize chunkOverlap text) = text ∧
    ∀ c ∈ createChunks chunkSize chunkOverlap text sourceFile,
      c.text = pyStrip (pySlice text c.char_start c.char_end) := by
  constructor
  · unfold chunkBounds
    by_cases h : (0 : Int) < (text.length : Int)
    · rw [chunkBoundsAux, if_pos h]
      have hb := nextEnd_bounds chunkSize text (le_refl (0 : Int)) (by omega)
      set e := nextEnd chunkSize text 0 with he
      simp only [concatWithOverlap]
      rw [chunkBoundsAux_glue chunkSize chunkOverlap text hco text.length
        (e - chunkOverlap) (by omega) (by omega)]
      have h2 : e - (chunkOverlap : Int) + chunkOverlap = e := by ring
      rw [h2]
      rw [pySlice_eq_drop_take text (i := (0 : Int)) (by omega) (by omega)]
      simp only [Int.toNat_zero, List.drop_zero, Nat.sub_zero]
      exact List.take_append_drop _ _
    · have hnil : text = [] := by
        have : text.length = 0 := by omega
        exact List.eq_nil_of_length_eq_zero this
      subst hnil
      rw [chunkBoundsAux, if_neg h]
      rfl
  · intro c hc
    exact createChunksAux_text chunkSize chunkOverlap text sourceFile _ _ _ c hc

/-- Witness for C2: the amended reconstruction theorem applied at the
default configuration `chunk_size=500, overlap=50` on a concrete text. -/
theorem c2_chunking_reconstruction_witness :
    concatWithOverlap 50 "hola mundo".data
        (chunkBounds 500 50 "hola mundo".data) = "hola mundo".data ∧
    ∀ c ∈ createChunks 500 50 "hola mundo".data "doc.txt",
      c.text = pyStrip (pySlice "hola mundo".data c.char_start c.char_end) :=
  c2_chunking_reconstruction 500 50 "hola mundo".data "doc.txt" (by decide)

/-- Counterexample for C2 as stated: on the text `" hello world!"` with
`chunk_size=500, overlap=50` a single chunk is produced and its text is the
*stripped* slice, so concatenating the chunk texts loses the leading
space — the original text is not reconstructed. -/
theorem c2_strip_loses_characters :
    ((createChunks 500 50 " hello world!".data "doc.txt").map
        DocumentChunk.text).flatten = "hello world!".data ∧
    "hello world!".data ≠ " hello world!".data := by
  constructor
  · rfl
  · decide

theorem mem_of_mem_pySlice {l : List Char} {i j : Int} {c : Char}
    (h : c ∈ pySlice l i j) : c ∈ l := by
  unfold pySlice at h
  exact ((List.take_sublist _ _).trans (List.drop_sublist _ _)).subset h

theorem dropWhile_eq_self_of_none {p : Char → Bool} {l : List Char}
    (h : ∀ c ∈ l, p c = false) : l.dropWhile p = l := by
  cases l with
  | nil => rfl
  | cons x xs =>
    rw [List.dropWhile_cons, h x (List.mem_cons_self x xs)]
    simp

theorem pyStrip_eq_self_of_no_space {l : List Char}
    (h : ∀ c ∈ l, isPySpace c = false) : pyStrip l = l := by
  unfold pyStrip
  rw [dropWhile_eq_self_of_none h,
    dropWhile_eq_self_of_none (fun c hc => h c (List.mem_reverse.mp hc))]
  exact List.reverse_reverse l

theorem pySlice_length_eq (l : List Char) {i j : Int}
    (hi : 0 ≤ i) (hj : 0 ≤ j) :
    (pySlice l i j).length = min j.toNat l.length - min i.toNat l.length := by
  unfold pySlice
  rw [pyIdx_of_nonneg _ hi, pyIdx_of_nonneg _ hj, List.length_take,
    List.length_drop]
  omega

theorem pySlice_isInfix (l : List Char) (i j : Int) : pySlice l i j <:+: l := by
  unfold pySlice
  exact ((List.take_prefix _ _).isInfix).trans (List.drop_suffix _ _).isInfix

/-- When `start + chunk_size` already reaches the end of the text, the
boundary search is skipped and the chunk end is `start + chunk_size`. -/
theorem nextEnd_of_ge (chunkSize : Nat) (text : List Char) (start : Int)
    (h : ¬ start + (chunkSize : Int) < (text.length : Int)) :
    nextEnd chunkSize text start = start + chunkSize := by
  simp only [nextEnd]
  rw [if_neg h]

/-- One iteration of the `_create_chunks` loop on a whitespace-free text:
`strip()` is the identity, so the emitted chunk carries the raw slice
`text[start:nextEnd]` (the boundary search may still have moved the end
back to just after a period). -/
theorem createChunksAux_nospace_step (chunkSize chunkOverlap : Nat)
    (text : List Char) (src : String)
    (hnospace : ∀ c ∈ text, isPySpace c = false)
    (fuel idx : Nat) (start : Int)
    (hlt : start < (text.length : Int))
    (hne : pySlice text start (nextEnd chunkSize text start) ≠ []) :
    createChunksAux chunkSize chunkOverlap text src (fuel + 1) start idx =
      { text := pySlice text start (nextEnd chunkSize text start),
        chunk_index := idx, source_file := src, char_start := start,
        char_end := nextEnd chunkSize text start,
        length :=
          (pySlice text start (nextEnd chunkSize text start)).length } ::
      createChunksAux chunkSize chunkOverlap text src fuel
        (nextEnd chunkSize text start - chunkOverlap) (idx + 1) := by
  simp only [createChunksAux]
  rw [if_pos hlt]
  rw [pyStrip_eq_self_of_no_space
    (l := pySlice text start (nextEnd chunkSize text start))
    (fun c hc => hnospace c (mem_of_mem_pySlice hc))]
  rw [if_pos hne]

/-- The `_create_chunks` loop exits as soon as `start` reaches the text
length. -/
theorem createChunksAux_exit (chunkSize chunkOverlap : Nat)
    (text : List Char) (src : String) (fuel idx : Nat) (start : Int)
    (hge : (text.length : Int) ≤ start) :
    createChunksAux chunkSize chunkOverlap text src (fuel + 1) start idx
      = [] := by
  rw [createChunksAux, if_neg (not_lt.mpr hge)]

/-- **C5 (amended)** — For every 1200-character text containing no
whitespace characters (so `strip()` is the identity on every slice; period
characters, which only shift the boundary search, are allowed),
`_create_chunks` with `chunk_size=500, overlap=50` produces exactly 3
chunks; each chunk's text is a contiguous substring of the original, and
chunk 2's first 50 characters equal chunk 1's last 50 characters. -/
theorem c5_chunks_1200_nospace (text : List Char) (src : String)
    (hlen : text.length = 1200)
    (hnospace : ∀ c ∈ text, isPySpace c = false) :
    ∃ t1 t2 t3,
      (createChunks 500 50 text src).map DocumentChunk.text = [t1, t2, t3] ∧
      t1 <:+: text ∧ t2 <:+: text ∧ t3 <:+: text ∧
      t2.take 50 = t1.drop (t1.length - 50) := by
  have hb1 := nextEnd_bounds 500 text (le_refl (0 : Int)) (by norm_num)
  obtain ⟨e1, he1⟩ : ∃ e, nextEnd 500 text 0 = e := ⟨_, rfl⟩
  rw [he1] at hb1
  push_cast at hb1
  have hb2 := nextEnd_bounds 500 text
    (show (0 : Int) ≤ e1 - 50 from by omega) (by norm_num)
  obtain ⟨e2, he2⟩ : ∃ e, nextEnd 500 text (e1 - 50) = e := ⟨_, rfl⟩
  rw [he2] at hb2
  push_cast at hb2
  have he3 : nextEnd 500 text (e2 - 50) = e2 - 50 + 500 := by
    have h := nextEnd_of_ge 500 text (e2 - 50) (by rw [hlen]; push_cast; omega)
    exact_mod_cast h
  have hne1 : pySlice text 0 e1 ≠ [] := by
    apply List.ne_nil_of_length_pos
    rw [pySlice_length_eq text (le_refl (0 : Int)) (by omega), hlen]
    omega
  have hne2 : pySlice text (e1 - 50) e2 ≠ [] := by
    apply List.ne_nil_of_length_pos
    rw [pySlice_length_eq text (by omega) (by omega), hlen]
    omega
  have hne3 : pySlice text (e2 - 50) (e2 - 50 + 500) ≠ [] := by
    apply List.ne_nil_of_length_pos
    rw [pySlice_length_eq text (by omega) (by omega), hlen]
    omega
  have hstep1 := createChunksAux_nospace_step 500 50 text src hnospace 1200 0 0
    (by rw [hlen]; norm_num) (by rw [he1]; exact hne1)
  rw [he1] at hstep1
  push_cast at hstep1
  have hstep2 := createChunksAux_nospace_step 500 50 text src hnospace 1199 1
    (e1 - 50) (by rw [hlen]; push_cast; omega) (by rw [he2]; exact hne2)
  rw [he2] at hstep2
  push_cast at hstep2
  have hstep3 := createChunksAux_nospace_step 500 50 text src hnospace 1198 2
    (e2 - 50) (by rw [hlen]; push_cast; omega) (by rw [he3]; exact hne3)
  rw [he3] at hstep3
  push_cast at hstep3
  have hexit := createChunksAux_exit 500 50 text src 1197 3
    (e2 - 50 + 500 - 50) (by rw [hlen]; push_cast; omega)
  refine ⟨pySlice text 0 e1, pySlice text (e1 - 50) e2,
    pySlice text (e2 - 50) (e2 - 50 + 500), ?_,
    pySlice_isInfix text 0 e1, pySlice_isInfix text (e1 - 50) e2,
    pySlice_isInfix text (e2 - 50) (e2 - 50 + 500), ?_⟩
  · unfold createChunks
    rw [hlen, hstep1, hstep2, hstep3, hexit]
    rfl
  · have ht1 : pySlice text 0 e1 = text.take e1.toNat := by
      rw [pySlice_eq_drop_take text (le_refl (0 : Int)) (by omega)]
      simp
    have harg : ((e1 - 50 : Int)).toNat = e1.toNat - 50 := by omega
    have ht2 : pySlice text (e1 - 50) e2 =
        (text.drop (e1.toNat - 50)).take (e2.toNat - (e1.toNat - 50)) := by
      rw [pySlice_eq_drop_take text (by omega) (by omega), harg]
    have ht1len : (text.take e1.toNat).length = e1.toNat := by
      rw [List.length_take, hlen]
      omega
    rw [ht1, ht2, ht1len, List.take_take, List.drop_take]
    congr 1
    omega

set_option maxRecDepth 100000 in
/-- Counterexample for C5 as stated: the all-space 1200-character text
yields 0 chunks (every slice strips to empty), not 3. -/
theorem c5_whitespace_counterexample :
    (createChunks 500 50 (List.replicate 1200 ' ') "doc.txt").length = 0 := by
  rfl

/-- Witness for C5: the amended theorem applied at the concrete
1200-character all-period text (whitespace-free, and every boundary-search
window finds a period, so the cut adjustment fires on both non-final
chunks). -/
theorem c5_chunks_1200_nospace_witness :
    ∃ t1 t2 t3,
      (createChunks 500 50 (List.replicate 1200 '.') "doc.txt").map
          DocumentChunk.text = [t1, t2, t3] ∧
      t1 <:+: List.replicate 1200 '.' ∧
      t2 <:+: List.replicate 1200 '.' ∧
      t3 <:+: List.replicate 1200 '.' ∧
      t2.take 50 = t1.drop (t1.length - 50) :=
  c5_chunks_1200_nospace (List.replicate 1200 '.') "doc.txt"
    (List.length_replicate 1200 '.')
    (fun c hc => by rw [List.eq_of_mem_replicate hc]; decide)

/-! ## `EmbeddingService` (src/embeddings/embedder.py)

The fastembed model (`self.model.embed`) is the opaque collaborator
`model`; a call that raises is an `.error` outcome.  `settings.EMBEDDING_DIM`
is 384 (config/settings.py). -/

/-- `settings.EMBEDDING_DIM` (config/settings.py). -/
def EMBEDDING_DIM : Nat := 384

/-- `EmbeddingService.embed_text`: empty or whitespace-only input yields a
zero-vector; otherwise the model is called on the singleton batch, and any
failure (exception or empty generator) also yields a zero-vector. -/
def embedText (model : List String → Except String (List (List ℚ)))
    (text : String) : List ℚ :=
  if text = "" ∨ pyStrip text.data = [] then
    List.replicate EMBEDDING_DIM 0
  else
    match model [text] with
    | .error _ => List.replicate EMBEDDING_DIM 0
    | .ok embeddings =>
      match embeddings with
      | [] => List.replicate EMBEDDING_DIM 0
      | e :: _ => e

/-- `EmbeddingService.embed_batch`: empty list yields `[]`; otherwise the
empty/whitespace-only texts are filtered out, and the model is called on
the remaining ones; if none remain, or the model raises, one zero-vector
per *input* element is returned. -/
def embedBatch (model : List String → Except String (List (List ℚ)))
    (texts : List String) : List (List ℚ) :=
  if texts = [] then []
  else
    let validTexts := texts.filter
      (fun t => !(t == "") && !(pyStrip t.data == []))
    if validTexts = [] then
      List.replicate texts.length (List.replicate EMBEDDING_DIM 0)
    else
      match model validTexts with
      | .error _ => List.replicate texts.length (List.replicate EMBEDDING_DIM 0)
      | .ok embeddings => embeddings

/-- Counterexample for C4: with a (well-behaved) model returning one
embedding per input, `embed_batch` on the mixed list `["hola", ""]`
returns a single embedding — the empty element gets no zero-vector and
the output has one element for a two-element input, so there is no
positional correspondence. -/
theorem c4_embed_batch_counterexample :
    embedBatch
        (fun ts => .ok (ts.map (fun _ => List.replicate EMBEDDING_DIM (1 : ℚ))))
        ["hola", ""] = [List.replicate EMBEDDING_DIM 1] ∧
    [List.replicate EMBEDDING_DIM (1 : ℚ)].length ≠ ["hola", ""].length := by
  constructor
  · rfl
  · decide

/-- **C4 (amended)** — `embed_text` returns the 384-dimensional zero-vector
for every empty/whitespace-only input (and never raises: it is total).
`embed_batch` never raises and returns: `[]` for the empty input list; one
zero-vector per input element when *all* elements are empty/whitespace-only
or when the model call fails; and, otherwise, exactly the model's
embeddings of the non-blank elements only — so the output pairs up with the
non-blank inputs, not positionally with the full input list. -/
theorem c4_zero_vector_on_blank
    (model : List String → Except String (List (List ℚ))) :
    (∀ text : String, pyStrip text.data = [] →
        embedText model text = List.replicate EMBEDDING_DIM 0) ∧
    embedBatch model [] = [] ∧
    (∀ texts : List String, texts ≠ [] →
      (∀ t ∈ texts, t = "" ∨ pyStrip t.data = []) →
        embedBatch model texts =
          List.replicate texts.length (List.replicate EMBEDDING_DIM 0)) ∧
    (∀ texts : List String, texts ≠ [] → ∀ e,
      model (texts.filter (fun t => !(t == "") && !(pyStrip t.data == []))) =
          .error e →
        embedBatch model texts =
          List.replicate texts.length (List.replicate EMBEDDING_DIM 0)) ∧
    (∀ texts embeddings, texts ≠ [] →
      texts.filter (fun t => !(t == "") && !(pyStrip t.data == [])) ≠ [] →
      model (texts.filter (fun t => !(t == "") && !(pyStrip t.data == []))) =
          .ok embeddings →
        embedBatch model texts = embeddings) := by
  refine ⟨?_, rfl, ?_, ?_, ?_⟩
  · intro text h
    unfold embedText
    rw [if_pos (Or.inr h)]
  · intro texts hne hall
    have hfilter : texts.filter
        (fun t => !(t == "") && !(pyStrip t.data == [])) = [] := by
      rw [List.filter_eq_nil_iff]
      intro t ht
      rcases hall t ht with h | h <;> simp [h]
    simp only [embedBatch]
    rw [if_neg hne, if_pos hfilter]
  · intro texts hne e herr
    by_cases hfilter : texts.filter
        (fun t => !(t == "") && !(pyStrip t.data == [])) = []
    · simp only [embedBatch]
      rw [if_neg hne, if_pos hfilter]
    · simp only [embedBatch]
      rw [if_neg hne, if_neg hfilter, herr]
  · intro texts embeddings hne hfilter hok
    simp only [embedBatch]
    rw [if_neg hne, if_neg hfilter, hok]

/-- Witness for C4: the amended theorem applied at concrete inputs. -/
theorem c4_zero_vector_on_blank_witness :
    embedText (fun _ => .ok []) "  " = List.replicate EMBEDDING_DIM 0 ∧
    embedBatch (fun _ => .ok []) ["", "  "] =
      List.replicate 2 (List.replicate EMBEDDING_DIM 0) ∧
    embedBatch (fun _ => .error "model down") ["hola"] =
      List.replicate 1 (List.replicate EMBEDDING_DIM 0) ∧
    embedBatch (fun ts => .ok (ts.map (fun _ => [(1 : ℚ)]))) ["hola"] =
      [[(1 : ℚ)]] :=
  ⟨(c4_zero_vector_on_blank _).1 "  " (by decide),
   (c4_zero_vector_on_blank _).2.2.1 ["", "  "] (by decide) (by decide),
   (c4_zero_vector_on_blank _).2.2.2.1 ["hola"] (by decide) "model down" rfl,
   (c4_zero_vector_on_blank _).2.2.2.2 ["hola"] [[(1 : ℚ)]] (by decide)
     (by decide) rfl⟩

/-! ## `DocumentIndexer.search_documents` (src/processing/indexer.py) -/

/-- A Qdrant point payload as read back by the repository (the optional
fields probed by the fallback chains). -/
structure QdrantPayload where
  filename : Option String
  source : Option String
  document_name : Option String
  text : Option String
  chunk_index : Option Nat
  deriving Repr, DecidableEq

/-- One nearest-neighbour search hit (`{'score': ..., 'payload': ...}`). -/
structure SearchResult where
  score : ℚ
  payload : QdrantPayload
  deriving Repr, DecidableEq

/-- `DocumentIndexer.search_documents`: embeds the query (via
`embed_text`, which is total), performs the vector search (the opaque
collaborator `vmSearch`, which may raise), filters results below
`score_threshold`, and returns `[]` on any backend error. -/
def searchDocuments
    (vmSearch : List ℚ → Nat → Except String (List SearchResult))
    (model : List String → Except String (List (List ℚ)))
    (query : String) (limit : Nat) (scoreThreshold : ℚ) : List SearchResult :=
  match vmSearch (embedText model query) limit with
  | .error _ => []
  | .ok results => results.filter (fun r => scoreThreshold ≤ r.score)

/-- **C8** — For a fixed query and fixed underlying result set, raising
`score_threshold` never increases the result set: with `t1 ≤ t2` the
results at `t2` are a sublist (hence a subset, and no longer) of the
results at `t1`. -/
theorem c8_threshold_monotonicity
    (vmSearch : List ℚ → Nat → Except String (List SearchResult))
    (model : List String → Except String (List (List ℚ)))
    (query : String) (limit : Nat) {t1 t2 : ℚ} (h : t1 ≤ t2) :
    List.Sublist (searchDocuments vmSearch model query limit t2)
        (searchDocuments vmSearch model query limit t1) ∧
    (searchDocuments vmSearch model query limit t2).length ≤
      (searchDocuments vmSearch model query limit t1).length ∧
    ∀ r ∈ searchDocuments vmSearch model query limit t2,
      r ∈ searchDocuments vmSearch model query limit t1 := by
  have hsub : List.Sublist (searchDocuments vmSearch model query limit t2)
      (searchDocuments vmSearch model query limit t1) := by
    unfold searchDocuments
    cases vmSearch (embedText model query) limit with
    | error e => exact List.Sublist.refl _
    | ok results =>
      refine List.monotone_filter_right results ?_
      intro r hr
      simp only [decide_eq_true_eq] at hr ⊢
      exact le_trans h hr
  exact ⟨hsub, hsub.length_le, fun r hr => hsub.subset hr⟩

/-- Witness for C8: the theorem applied at a concrete mock backend holding
one 0.4-score result, with thresholds 0.3 ≤ 0.9 (the spec's scenario: the
0.4 hit survives at 0.3 and is filtered out at 0.9). -/
theorem c8_threshold_monotonicity_witness :
    (3 : ℚ)/10 ≤ (9 : ℚ)/10 ∧
    (∀ r ∈ searchDocuments
        (fun _ _ => .ok [⟨(4 : ℚ)/10, ⟨some "a.pdf", none, none, some "t", some 0⟩⟩])
        (fun _ => .ok [[(1 : ℚ)]]) "q" 3 ((9 : ℚ)/10),
      r ∈ searchDocuments
        (fun _ _ => .ok [⟨(4 : ℚ)/10, ⟨some "a.pdf", none, none, some "t", some 0⟩⟩])
        (fun _ => .ok [[(1 : ℚ)]]) "q" 3 ((3 : ℚ)/10)) :=
  ⟨by norm_num,
   (c8_threshold_monotonicity
     (fun _ _ => .ok [⟨(4 : ℚ)/10, ⟨some "a.pdf", none, none, some "t", some 0⟩⟩])
     (fun _ => .ok [[(1 : ℚ)]]) "q" 3 (by norm_num)).2.2⟩

/-! ## `IntelligentRouter` (src/router/intelligent_router.py) and
`MinervaCrew._classify_intent` (src/crew/minerva_crew.py)

The collaborators injected into the router (indexer, conversational agent,
knowledge agent) are opaque `Except`-valued functions; a raised exception
is an `.error` outcome.  The Python code interpolates scores into
`routing_reason` strings (`f"... (score: {x:.2f})"`); the model keeps the
static message prefixes, which no claim inspects. -/

/-- A source citation as assembled by `KnowledgeAgent.answer`. -/
structure Source where
  filename : String
  chunk_index : Nat
  score : ℚ
  text_preview : String
  deriving Repr, DecidableEq

/-- The dict returned by `KnowledgeAgent.answer`. -/
structure KnowledgeResult where
  answer : String
  confidence : String
  sources : List Source
  num_sources : Nat
  deriving Repr, DecidableEq

/-- The dict returned by `IntelligentRouter._check_knowledge_base`. -/
structure KBCheck where
  has_knowledge : Bool
  results : List SearchResult
  max_score : ℚ
  decision : String
  num_results : Option Nat
  deriving Repr, DecidableEq

/-- The dict returned by `IntelligentRouter.route` (fields absent in a
given branch are `none`). -/
structure RouteResult where
  answer : String
  agent_used : String
  confidence : Option String
  sources : Option (List Source)
  num_sources : Option Nat
  routing_reason : String
  had_context : Option Bool
  kb_max_score : Option ℚ
  error : Option String
  deriving Repr, DecidableEq

/-- The collaborators of `IntelligentRouter`:
`indexer.search_documents`, `indexer.get_document_context`,
`conversational_agent.chat`, `knowledge_agent.answer`. -/
structure RouterEnv where
  searchDocs : String → String → Nat → ℚ → Except String (List SearchResult)
  getDocumentContext : String → String → Nat → Except String String
  chat : String → Option String → Option Nat → Except String String
  knowledgeAnswer : String → Option Nat → String → Except String KnowledgeResult

/-- Python `max(...)` over a non-empty list (the code only evaluates it
under an emptiness guard). -/
def pyMax (scores : List ℚ) : ℚ :=
  match scores with
  | [] => 0
  | x :: xs => xs.foldl max x

/-- `IntelligentRouter._check_knowledge_base`: proactive search with
limit 3 and threshold 0.3; an exception in the search yields the
"no knowledge" record. -/
def checkKnowledgeBase (env : RouterEnv) (query : String)
    (collectionName : String) (knowledgeThreshold : ℚ) : KBCheck :=
  match env.searchDocs query collectionName 3 ((3 : ℚ)/10) with
  | .error _ => ⟨false, [], 0, "conversational", none⟩
  | .ok results =>
    if results = [] then ⟨false, [], 0, "conversational", none⟩
    else
      let maxScore := pyMax (results.map (·.score))
      ⟨true, results, maxScore,
        if knowledgeThreshold ≤ maxScore then "knowledge" else "conversational",
        some results.length⟩

/-- The keyword lists of `IntelligentRouter._detect_query_patterns`. -/
def knowledgeKeywords : List (List Char) :=
  [ "qué es".data, "cómo funciona".data, "explica".data, "cuál es".data,
    "dime sobre".data, "información sobre".data, "características de".data,
    "tecnologías".data, "arquitectura".data, "documentación".data ]

/-- The conversational keyword list of `_detect_query_patterns`. -/
def conversationalKeywords : List (List Char) :=
  [ "hola".data, "buenos días".data, "gracias".data, "ayuda".data,
    "puedes".data, "podrías".data, "me gustaría".data ]

/-- Python `str.endswith(suffix)`. -/
def pyEndsWith (l p : List Char) : Bool := p.isSuffixOf l

/-- The dict returned by `_detect_query_patterns`. -/
structure QueryPatterns where
  has_knowledge_pattern : Bool
  has_conversational_pattern : Bool
  is_question : Bool
  length : Nat
  deriving Repr, DecidableEq

/-- `IntelligentRouter._detect_query_patterns`. -/
def detectQueryPatterns (query : String) : QueryPatterns :=
  let queryLower := pyLower query.data
  ⟨knowledgeKeywords.any (fun kw => pyIn kw queryLower),
   conversationalKeywords.any (fun kw => pyIn kw queryLower),
   pyEndsWith (pyStrip query.data) "?".data,
   query.data.length⟩

/-- The `try:` block of `IntelligentRouter.route` — any raised exception
propagates as an `.error` to the handler in `route`. -/
def routeTry (env : RouterEnv) (knowledgeThreshold : ℚ) (userMessage : String)
    (conversationId : Option Nat) (collectionName : String)
    (forceAgent : Option String) : Except String RouteResult :=
  match forceAgent with
  | some fa =>
    if fa = "knowledge" then
      match env.knowledgeAnswer userMessage conversationId collectionName with
      | .error e => .error e
      | .ok r => .ok ⟨r.answer, "knowledge", some r.confidence, some r.sources,
          none, "forced", none, none, none⟩
    else
      match env.chat userMessage none conversationId with
      | .error e => .error e
      | .ok a => .ok ⟨a, "conversational", none, none, none, "forced",
          none, none, none⟩
  | none =>
    let kbCheck :=
      checkKnowledgeBase env userMessage collectionName knowledgeThreshold
    let patterns := detectQueryPatterns userMessage
    let dr : String × String :=
      if kbCheck.has_knowledge ∧ knowledgeThreshold ≤ kbCheck.max_score then
        ("knowledge", "Knowledge base match")
      else if patterns.has_knowledge_pattern ∧ kbCheck.has_knowledge then
        ("knowledge", "Knowledge pattern + results")
      else
        ("conversational",
          if kbCheck.has_knowledge then "Low relevance, using conversational"
          else "No knowledge base results, using conversational")
    if dr.1 = "knowledge" then
      match env.knowledgeAnswer userMessage conversationId collectionName with
      | .error e => .error e
      | .ok r => .ok ⟨r.answer, "knowledge", some r.confidence, some r.sources,
          some r.num_sources, dr.2, none, some kbCheck.max_score, none⟩
    else
      match
        (if kbCheck.has_knowledge ∧ (3 : ℚ)/10 < kbCheck.max_score then
          match env.getDocumentContext userMessage collectionName 1 with
          | .error e => .error e
          | .ok ctx => .ok (some ctx)
        else .ok none : Except String (Option String)) with
      | .error e => .error e
      | .ok context =>
        match env.chat userMessage context conversationId with
        | .error e => .error e
        | .ok answer => .ok ⟨answer, "conversational", none, none, none, dr.2,
            some context.isSome, some kbCheck.max_score, none⟩

/-- `IntelligentRouter.route`: on any exception from the `try:` block,
fall back to a context-free conversational call; if that also raises,
return the static apology instead of raising. -/
def route (env : RouterEnv) (knowledgeThreshold : ℚ) (userMessage : String)
    (conversationId : Option Nat) (collectionName : String)
    (forceAgent : Option String) : RouteResult :=
  match routeTry env knowledgeThreshold userMessage conversationId
      collectionName forceAgent with
  | .ok r => r
  | .error e =>
    match env.chat userMessage none conversationId with
    | .ok answer => ⟨answer, "conversational", none, none, none,
        "error_fallback", none, none, some e⟩
    | .error e2 => ⟨"Lo siento, hubo un error procesando tu mensaje.", "none",
        none, none, none, "critical_error", none, none, some e2⟩

/-- The closed category set of `MinervaCrew._classify_intent`. -/
def validIntents : List String :=
  ["conversation", "knowledge", "web", "source_request"]

/-- `MinervaCrew._classify_intent`.  `classificationOutcome` is the
combined outcome of the prompt-store lookup, the template formatting and
the Ollama HTTP call with its JSON `response` field — each of which raises
into the same `try`, whose handler returns `'conversation'`. -/
def classifyIntent (classificationOutcome : Except String String) : String :=
  match classificationOutcome with
  | .error _ => "conversation"
  | .ok response =>
    let intent := pyLower (pyStrip response.data)
    match validIntents.find? (fun v => pyIn v.data intent) with
    | some v => v
    | none => "conversation"

/-- **C3** — `route()` never propagates an exception: it is a total
function, and (a) when the knowledge-base check raises but the
conversational agent works, the result is the conversational branch's
well-formed record; (b) when the `try:` block raises and the fallback chat
also raises, the result's answer is the static apology string; (c) a
classification call that raises yields the safe default category
`'conversation'`. -/
theorem c3_route_never_raises (env : RouterEnv) (kt : ℚ) (msg : String)
    (cid : Option Nat) (coll : String) :
    (∀ e a, env.searchDocs msg coll 3 ((3 : ℚ)/10) = .error e →
      env.chat msg none cid = .ok a →
      route env kt msg cid coll none =
        ⟨a, "conversational", none, none, none,
          "No knowledge base results, using conversational",
          some false, some 0, none⟩) ∧
    (∀ e e2, routeTry env kt msg cid coll none = .error e →
      env.chat msg none cid = .error e2 →
      route env kt msg cid coll none =
        ⟨"Lo siento, hubo un error procesando tu mensaje.", "none",
          none, none, none, "critical_error", none, none, some e2⟩) ∧
    (∀ e, classifyIntent (.error e) = "conversation") := by
  refine ⟨?_, ?_, fun e => rfl⟩
  · intro e a herr hchat
    have hkb : checkKnowledgeBase env msg coll kt =
        ⟨false, [], 0, "conversational", none⟩ := by
      unfold checkKnowledgeBase
      rw [herr]
    have htry : routeTry env kt msg cid coll none =
        .ok ⟨a, "conversational", none, none, none,
          "No knowledge base results, using conversational",
          some false, some 0, none⟩ := by
      simp [routeTry, hkb, hchat]
    unfold route
    rw [htry]
  · intro e e2 htry hchat
    unfold route
    rw [htry, hchat]

/-- A mock router environment whose vector search raises but whose
conversational agent works. -/
def routerEnvNoSearch : RouterEnv :=
  ⟨fun _ _ _ _ => .error "qdrant down", fun _ _ _ => .error "x",
   fun _ _ _ => .ok "¡Hola!", fun _ _ _ => .error "y"⟩

/-- A mock router environment with every collaborator failing. -/
def routerEnvAllDown : RouterEnv :=
  ⟨fun _ _ _ _ => .error "qdrant down", fun _ _ _ => .error "x",
   fun _ _ _ => .error "ollama down", fun _ _ _ => .error "y"⟩

/-- Witness for C3: the theorem applied to concrete environments — one
with a failing vector search and a working conversational agent, one with
every collaborator failing. -/
theorem c3_route_never_raises_witness :
    route routerEnvNoSearch ((2 : ℚ)/5) "hola" none "knowledge_base" none =
      ⟨"¡Hola!", "conversational", none, none, none,
        "No knowledge base results, using conversational", some false, some 0,
        none⟩ ∧
    route routerEnvAllDown ((2 : ℚ)/5) "hola" none "knowledge_base" none =
      ⟨"Lo siento, hubo un error procesando tu mensaje.", "none",
        none, none, none, "critical_error", none, none, some "ollama down"⟩ ∧
    classifyIntent (.error "conn refused") = "conversation" :=
  ⟨(c3_route_never_raises routerEnvNoSearch ((2 : ℚ)/5) "hola" none
      "knowledge_base").1 "qdrant down" "¡Hola!" rfl rfl,
   (c3_route_never_raises routerEnvAllDown ((2 : ℚ)/5) "hola" none
      "knowledge_base").2.1 "ollama down" "ollama down" rfl rfl,
   (c3_route_never_raises routerEnvAllDown ((2 : ℚ)/5) "hola" none
      "knowledge_base").2.2 "conn refused"⟩

/-! ## `KnowledgeAgent.answer` (src/agents/knowledge.py)

The answer pipeline is modelled with an explicit event trace recording the
database writes and the Ollama generation calls, so that "no generation
call is made" is a statement about the trace. -/

/-- An external side effect performed by `KnowledgeAgent.answer`. -/
inductive KAEvent where
  | dbWrite (role content : String) : KAEvent
  | genCall (prompt : String) : KAEvent
  deriving Repr, DecidableEq

/-- The collaborators of `KnowledgeAgent`: `indexer.search_documents`,
`indexer.get_document_context`, the Ollama `/api/generate` call (with
`raise_for_status` and the JSON `response` field), the agent's configured
role prompt, and whether a `db_manager` is attached. -/
structure KnowledgeEnv where
  searchDocs : String → String → Nat → ℚ → Except String (List SearchResult)
  getDocumentContext : String → String → Nat → Except String String
  generate : String → Except String String
  role : String
  hasDb : Bool

/-- `KnowledgeAgent._assess_confidence`. -/
def assessConfidence (results : List SearchResult) : String :=
  if results = [] then "Baja"
  else
    let avgScore := (results.map (·.score)).sum / results.length
    if (7 : ℚ)/10 ≤ avgScore ∧ 2 ≤ results.length then "Alta"
    else if (1 : ℚ)/2 ≤ avgScore ∨ 1 ≤ results.length then "Media"
    else "Baja"

/-- `KnowledgeAgent._build_rag_prompt`. -/
def buildRagPrompt (role userMessage context confidence : String) : String :=
  role ++ "\n\n**Tu proceso:**\n" ++
  "1. Analiza el contexto proporcionado de los documentos\n" ++
  "2. Responde la pregunta basándote en ese contexto\n" ++
  "3. Cita las fuentes cuando sea relevante\n" ++
  "4. Si el contexto no es suficiente, indícalo claramente\n\n" ++
  "**Nivel de confianza en el contexto: " ++ confidence ++ "**\n\n" ++
  "**IMPORTANTE:**\n" ++
  "- Si la información está en el contexto, úsala y cita la fuente\n" ++
  "- Si el contexto no tiene la información, admite que no la tienes\n" ++
  "- No inventes información que no esté en el contexto\n" ++
  "\n\n===== CONTEXTO DE DOCUMENTOS =====\n" ++ context ++
  "\n===== FIN DEL CONTEXTO =====\n\nUsuario: " ++ userMessage ++
  "\n\nMinerva (basándome en los documentos):"

/-- The static "not found in documents" answer of `KnowledgeAgent.answer`. -/
def noContextResponse : String :=
  "No encontré información relevante en mis documentos sobre eso. " ++
  "¿Podrías reformular la pregunta o proporcionar más contexto?"

/-- Python's `a or b` fallback on optional strings (`None` and `""` are
falsy), as used by the payload field fallback chains. -/
def orFalsy (a : Option String) (b : String) : String :=
  match a with
  | some s => if s = "" then b else s
  | none => b

/-- Python `str.strip()` on `String`. -/
def pyStripString (s : String) : String := String.mk (pyStrip s.data)

/-- The source-citation record built for each search result in step 7 of
`KnowledgeAgent.answer` (payload field fallback chains included). -/
def sourceOfResult (r : SearchResult) : Source :=
  { filename := orFalsy r.payload.filename (orFalsy r.payload.source
      (orFalsy r.payload.document_name "Desconocido")),
    chunk_index := r.payload.chunk_index.getD 0,
    score := r.score,
    text_preview :=
      match r.payload.text with
      | some t => if t = "" then "Sin preview"
                  else String.mk (t.data.take 150) ++ "..."
      | none => "Sin preview" }

/-- `KnowledgeAgent.answer`: searches with threshold 0.3 and limit
`max_context_chunks`; when no result survives (or confidence is low)
returns the static "not found" record without generating; otherwise builds
the RAG prompt and calls Ollama.  Exceptions are re-raised as
`AgentExecutionError` (`.error`).  Returns the result together with the
trace of database writes and generation calls. -/
def knowledgeAnswer (env : KnowledgeEnv) (userMessage : String)
    (conversationId : Option Nat) (collectionName : String)
    (maxContextChunks : Nat) :
    Except String (KnowledgeResult × List KAEvent) :=
  let dbOn := env.hasDb && conversationId.isSome
  let ev0 : List KAEvent := if dbOn then [.dbWrite "user" userMessage] else []
  match env.searchDocs userMessage collectionName maxContextChunks
      ((3 : ℚ)/10) with
  | .error e => .error ("Error procesando pregunta: " ++ e)
  | .ok results =>
    let confidence := assessConfidence results
    if results = [] ∨ confidence = "Baja" then
      .ok (⟨noContextResponse, "Baja", [], 0⟩,
        ev0 ++ (if dbOn then [.dbWrite "assistant" noContextResponse] else []))
    else
      match env.getDocumentContext userMessage collectionName
          maxContextChunks with
      | .error e => .error ("Error procesando pregunta: " ++ e)
      | .ok context =>
        let prompt := buildRagPrompt env.role userMessage context confidence
        match env.generate prompt with
        | .error e => .error ("Error procesando pregunta: " ++ e)
        | .ok raw =>
          let answer := pyStripString raw
          if answer = "" then
            .error "Error procesando pregunta: Ollama no devolvió respuesta"
          else
            let sources := results.map sourceOfResult
            .ok (⟨answer, confidence, sources, sources.length⟩,
              ev0 ++ [.genCall prompt] ++
                (if dbOn then [.dbWrite "assistant" answer] else []))

/-- **C6** — When `search_documents` returns an empty list (no chunk
clears the threshold), `KnowledgeAgent.answer` returns the "not found in
documents" answer with confidence `'Baja'` and an empty sources list, and
its trace contains no generation call to the Completion Provider. -/
theorem c6_not_found_skips_generation (env : KnowledgeEnv) (msg : String)
    (cid : Option Nat) (coll : String)
    (h : env.searchDocs msg coll 3 ((3 : ℚ)/10) = .ok []) :
    ∃ trace,
      knowledgeAnswer env msg cid coll 3 =
        .ok (⟨noContextResponse, "Baja", [], 0⟩, trace) ∧
      ∀ p, KAEvent.genCall p ∉ trace := by
  refine ⟨(if env.hasDb && cid.isSome then [.dbWrite "user" msg] else []) ++
    (if env.hasDb && cid.isSome then
      [.dbWrite "assistant" noContextResponse] else []), ?_, ?_⟩
  · simp only [knowledgeAnswer, h]
    rw [if_pos (Or.inl trivial)]
  · intro p hp
    rcases List.mem_append.mp hp with hmem | hmem <;>
    · by_cases hdb : env.hasDb && cid.isSome = true <;>
        simp [hdb] at hmem

/-- Witness for C6: the theorem applied to a mock environment whose search
returns no result above the threshold. -/
theorem c6_not_found_skips_generation_witness :
    ∃ trace,
      knowledgeAnswer
          ⟨fun _ _ _ _ => .ok [], fun _ _ _ => .ok "ctx",
           fun _ => .ok "resp", "Eres Minerva.", true⟩
          "¿Qué es X?" none "knowledge_base" 3 =
        .ok (⟨noContextResponse, "Baja", [], 0⟩, trace) ∧
      ∀ p, KAEvent.genCall p ∉ trace :=
  c6_not_found_skips_generation
    ⟨fun _ _ _ _ => .ok [], fun _ _ _ => .ok "ctx",
     fun _ => .ok "resp", "Eres Minerva.", true⟩
    "¿Qué es X?" none "knowledge_base" rfl

/-! ## `FactExtractor` (src/memory/fact_extractor.py)

`json.loads` is the opaque parameter `jsonLoads` (`none` models a raised
`json.JSONDecodeError`; any other exception Python can raise there does
not exist for a conforming JSON parser).  Python dynamic typing:
`data.get('facts', [])` raises `AttributeError` unless `data` is a dict,
and `for fact in facts` raises `TypeError` when `facts` is not iterable;
iterating a string or a dict yields strings (never dicts), so those cases
contribute no valid facts. -/

/-- A parsed Python/JSON value. -/
inductive PyJson where
  | null : PyJson
  | bool (b : Bool) : PyJson
  | num (q : ℚ) : PyJson
  | str (s : String) : PyJson
  | arr (xs : List PyJson) : PyJson
  | obj (kvs : List (String × PyJson)) : PyJson
  deriving Repr

/-- Python `dict.get(k)` on a parsed JSON object. -/
def lookupKey (kvs : List (String × PyJson)) (k : String) : Option PyJson :=
  (kvs.find? (fun kv => kv.1 == k)).map (·.2)

/-- One extracted fact (`{'category': ..., 'fact': ...}`; the
`extracted_at` wall-clock timestamp field is omitted). -/
structure ExtractedFact where
  category : PyJson
  fact : PyJson
  deriving Repr

/-- The validation loop of `_parse_facts_json`: keep the elements of
`facts` that are dicts containing both the `'category'` and `'fact'`
keys.  Iterating a non-iterable raises `TypeError` (`.error`); iterating a
string or a dict yields strings, hence no valid facts. -/
def validFactsOf (facts : PyJson) : Except String (List ExtractedFact) :=
  match facts with
  | .arr xs => .ok (xs.filterMap (fun f =>
      match f with
      | .obj kvs =>
        match lookupKey kvs "category", lookupKey kvs "fact" with
        | some c, some fv => some ⟨c, fv⟩
        | _, _ => none
      | _ => none))
  | .str _ => .ok []
  | .obj _ => .ok []
  | _ => .error "TypeError: not iterable"

/-- Python `str.find(c)` for a single-character needle: first index of
`c`, or `-1` when absent. -/
def findChar : List Char → Char → Int
  | [], _ => -1
  | x :: xs, c =>
    if x = c then 0
    else
      let r := findChar xs c
      if r ≥ 0 then r + 1 else -1

/-- `FactExtractor._parse_facts_json`.  The direct branch catches *only*
`json.JSONDecodeError`; an `AttributeError`/`TypeError` from a successful
parse of a non-dict value propagates (`.error`).  The brace-span fallback
branch catches every exception and falls through to `return []`. -/
def parseFactsJson (jsonLoads : List Char → Option PyJson)
    (rawOutput : List Char) : Except String (List ExtractedFact) :=
  match jsonLoads rawOutput with
  | some data =>
    match data with
    | .obj kvs => validFactsOf ((lookupKey kvs "facts").getD (.arr []))
    | _ => .error "AttributeError: .get on non-dict"
  | none =>
    let start := findChar rawOutput '\x7b'
    let stop := rfindChar rawOutput '\x7d' + 1
    if start ≠ -1 ∧ start < stop then
      match jsonLoads (pySlice rawOutput start stop) with
      | some data =>
        match data with
        | .obj kvs =>
          match validFactsOf ((lookupKey kvs "facts").getD (.arr [])) with
          | .ok facts => .ok facts
          | .error _ => .ok []
        | _ => .ok []
      | none => .ok []
    else .ok []

/-- `FactExtractor.extract_facts`: empty message lists yield `[]`;
`ollamaOutcome` is the combined outcome of the Ollama HTTP call (a raised
`requests` error is `.error`) and its JSON `response` field; any exception
from parsing is caught and yields `[]`.  (The prompt construction, which
only feeds the request, is elided.) -/
def extractFacts (jsonLoads : List Char → Option PyJson)
    (ollamaOutcome : Except String String)
    (userMessages aiMessages : List String) : List ExtractedFact :=
  if userMessages = [] ∨ aiMessages = [] then []
  else
    match ollamaOutcome with
    | .error _ => []
    | .ok response =>
      match parseFactsJson jsonLoads (pyStrip response.data) with
      | .ok facts => facts
      | .error _ => []

/-- **C9** — Fact-extraction output parsing is defensive and total: for
every raw model output, a failed direct JSON parse falls back to the
outermost `{...}` span (`raw[raw.find('{') : raw.rfind('}')+1]`), the
fallback never raises, and any failure anywhere yields zero facts from
`extract_facts` instead of an exception. -/
theorem c9_parse_defensive (jsonLoads : List Char → Option PyJson)
    (userMessages aiMessages : List String) :
    (∀ raw, jsonLoads raw = none →
      parseFactsJson jsonLoads raw =
        (if findChar raw '\x7b' ≠ -1 ∧
            findChar raw '\x7b' < rfindChar raw '\x7d' + 1 then
          match jsonLoads (pySlice raw (findChar raw '\x7b')
              (rfindChar raw '\x7d' + 1)) with
          | some data =>
            match data with
            | .obj kvs =>
              match validFactsOf ((lookupKey kvs "facts").getD (.arr [])) with
              | .ok facts => .ok facts
              | .error _ => .ok []
            | _ => .ok []
          | none => .ok []
        else .ok [])) ∧
    (∀ raw, jsonLoads raw = none →
      ∃ facts, parseFactsJson jsonLoads raw = .ok facts) ∧
    (∀ response e,
      parseFactsJson jsonLoads (pyStrip response.data) = .error e →
      extractFacts jsonLoads (.ok response) userMessages aiMessages = []) ∧
    (∀ response facts, userMessages ≠ [] → aiMessages ≠ [] →
      parseFactsJson jsonLoads (pyStrip response.data) = .ok facts →
      extractFacts jsonLoads (.ok response) userMessages aiMessages = facts) ∧
    (∀ e, extractFacts jsonLoads (.error e) userMessages aiMessages = []) := by
  have hfall : ∀ raw, jsonLoads raw = none →
      parseFactsJson jsonLoads raw =
        (if findChar raw '\x7b' ≠ -1 ∧
            findChar raw '\x7b' < rfindChar raw '\x7d' + 1 then
          match jsonLoads (pySlice raw (findChar raw '\x7b')
              (rfindChar raw '\x7d' + 1)) with
          | some data =>
            match data with
            | .obj kvs =>
              match validFactsOf ((lookupKey kvs "facts").getD (.arr [])) with
              | .ok facts => .ok facts
              | .error _ => .ok []
            | _ => .ok []
          | none => .ok []
        else .ok []) := by
    intro raw hnone
    unfold parseFactsJson
    rw [hnone]
  refine ⟨hfall, ?_, ?_, ?_, ?_⟩
  · intro raw hnone
    rw [hfall raw hnone]
    by_cases hcond : findChar raw '\x7b' ≠ -1 ∧
        findChar raw '\x7b' < rfindChar raw '\x7d' + 1
    · rw [if_pos hcond]
      cases hspan : jsonLoads (pySlice raw (findChar raw '\x7b')
          (rfindChar raw '\x7d' + 1)) with
      | none => exact ⟨[], rfl⟩
      | some data =>
        cases data with
        | obj kvs =>
          change ∃ facts,
            (match validFactsOf ((lookupKey kvs "facts").getD (.arr [])) with
              | Except.ok facts => Except.ok facts
              | Except.error _ => Except.ok []) = Except.ok facts
          cases hv : validFactsOf ((lookupKey kvs "facts").getD (.arr [])) with
          | ok facts => exact ⟨facts, rfl⟩
          | error err => exact ⟨[], rfl⟩
        | null => exact ⟨[], rfl⟩
        | bool b => exact ⟨[], rfl⟩
        | num q => exact ⟨[], rfl⟩
        | str s => exact ⟨[], rfl⟩
        | arr xs => exact ⟨[], rfl⟩
    · rw [if_neg hcond]
      exact ⟨[], rfl⟩
  · intro response e herr
    simp only [extractFacts]
    by_cases hmsg : userMessages = [] ∨ aiMessages = []
    · rw [if_pos hmsg]
    · rw [if_neg hmsg, herr]
  · intro response facts hu ha hok
    simp only [extractFacts]
    rw [if_neg (by simp [hu, ha]), hok]
  · intro e
    simp only [extractFacts]
    by_cases hmsg : userMessages = [] ∨ aiMessages = []
    · rw [if_pos hmsg]
    · rw [if_neg hmsg]

/-- Witness for C9: the theorem applied with a mock JSON parser failing on
noisy output but succeeding on the inner brace span, and at outcomes where
direct parsing succeeds on a non-dict (raising past the first handler) or
the HTTP call fails. -/
theorem c9_parse_defensive_witness :
    (∃ facts, parseFactsJson (fun _ => none) "garbage".data = .ok facts) ∧
    extractFacts (fun _ => some (.num 5)) (.ok "5") ["hola"] ["mundo"] = [] ∧
    extractFacts (fun _ => some (.obj [("facts",
        .arr [.obj [("category", .str "personal"),
                    ("fact", .str "vive en Madrid")]])]))
      (.ok "ok") ["hola"] ["mundo"] =
      [⟨.str "personal", .str "vive en Madrid"⟩] ∧
    extractFacts (fun _ => none) (.error "timeout") ["hola"] ["mundo"] = [] :=
  ⟨(c9_parse_defensive (fun _ => none) [] []).2.1 "garbage".data rfl,
   (c9_parse_defensive (fun _ => some (.num 5)) ["hola"] ["mundo"]).2.2.1
     "5" "AttributeError: .get on non-dict" rfl,
   (c9_parse_defensive _ ["hola"] ["mundo"]).2.2.2.1 "ok"
     [⟨.str "personal", .str "vive en Madrid"⟩] (by decide) (by decide) rfl,
   (c9_parse_defensive (fun _ => none) ["hola"] ["mundo"]).2.2.2.2 "timeout"⟩

/-! ## `SimpleMemoryService._extract_facts` (src/memory/simple_memory.py) -/

/-- The anchored substitution `re.sub(r'^\d+\.\s*', '', line)`: strip a
leading "1. "-style numbering. -/
def stripNumbering (l : List Char) : List Char :=
  let ds := l.takeWhile Char.isDigit
  let rest := l.dropWhile Char.isDigit
  if ds ≠ [] then
    match rest with
    | '.' :: rest2 => rest2.dropWhile isPySpace
    | _ => l
  else l

/-- The anchored substitution `re.sub(r'^[-*•]\s*', '', line)`: strip a
leading bullet. -/
def stripBullet (l : List Char) : List Char :=
  match l with
  | c :: rest =>
    if c = '-' ∨ c = '*' ∨ c = '•' then rest.dropWhile isPySpace else l
  | [] => l

/-- `SimpleMemoryService._extract_facts`: `responseOutcome` is the
combined outcome of the Ollama HTTP call (any exception yields `[]` via
the handler) and its JSON `response` field, stripped.  "NINGUNO" and empty
responses yield no facts; otherwise each line is stripped, de-numbered,
de-bulleted, stripped again, and kept when strictly longer than 10
characters; at most the first 5 facts are returned. -/
def extractFactsSimple (responseOutcome : Except String String) :
    List (List Char) :=
  match responseOutcome with
  | .error _ => []
  | .ok resp =>
    let factsText := pyStrip resp.data
    if factsText = "NINGUNO".data ∨ factsText = [] then []
    else
      let facts := (factsText.splitOn '\n').filterMap (fun line =>
        let s := pyStrip line
        if s = [] then none
        else
          let s2 := pyStrip (stripBullet (stripNumbering s))
          if s2 ≠ [] ∧ 10 < s2.length then some s2 else none)
      facts.take 5

/-- **C10** — `_extract_facts` returns at most 5 facts per interaction;
every returned fact (already stripped of numbering/bullet prefixes) is
strictly longer than 10 characters; and a response that strips to
"NINGUNO" or to the empty string yields the empty list. -/
theorem c10_simple_memory_extract (responseOutcome : Except String String) :
    (extractFactsSimple responseOutcome).length ≤ 5 ∧
    (∀ f ∈ extractFactsSimple responseOutcome, 10 < f.length) ∧
    (∀ s, responseOutcome = .ok s →
      (pyStrip s.data = "NINGUNO".data ∨ pyStrip s.data = []) →
      extractFactsSimple responseOutcome = []) := by
  refine ⟨?_, ?_, ?_⟩
  · cases responseOutcome with
    | error e => simp [extractFactsSimple]
    | ok resp =>
      simp only [extractFactsSimple]
      by_cases hn : pyStrip resp.data = "NINGUNO".data ∨ pyStrip resp.data = []
      · rw [if_pos hn]; simp
      · rw [if_neg hn]
        exact le_trans (List.length_take_le 5 _) (le_refl 5)
  · intro f hf
    cases responseOutcome with
    | error e => simp [extractFactsSimple] at hf
    | ok resp =>
      simp only [extractFactsSimple] at hf
      by_cases hn : pyStrip resp.data = "NINGUNO".data ∨ pyStrip resp.data = []
      · rw [if_pos hn] at hf; simp at hf
      · rw [if_neg hn] at hf
        have hf2 := List.take_subset 5 _ hf
        obtain ⟨line, _, hsome⟩ := List.mem_filterMap.mp hf2
        by_cases hs : pyStrip line = []
        · simp [hs] at hsome
        · rw [if_neg hs] at hsome
          by_cases hcond : pyStrip (stripBullet (stripNumbering
              (pyStrip line))) ≠ [] ∧
              10 < (pyStrip (stripBullet (stripNumbering
                (pyStrip line)))).length
          · rw [if_pos hcond] at hsome
            rw [← Option.some_inj.mp hsome]
            exact hcond.2
          · rw [if_neg hcond] at hsome
            simp at hsome
  · intro s hs hn
    subst hs
    simp only [extractFactsSimple]
    rw [if_pos hn]

/-- Witness for C10: the theorem applied at a "NINGUNO" response and
checked alongside a mixed concrete response (one long fact kept, one short
line dropped). -/
theorem c10_simple_memory_extract_witness :
    extractFactsSimple (.ok " NINGUNO ") = [] ∧
    extractFactsSimple
        (.ok "1. El usuario vive en Madrid\ncorto\n- El gato de la casa es gris") =
      ["El usuario vive en Madrid".data, "El gato de la casa es gris".data] ∧
    (∀ f ∈ extractFactsSimple
        (.ok "1. El usuario vive en Madrid\ncorto\n- El gato de la casa es gris"),
      10 < f.length) :=
  ⟨(c10_simple_memory_extract (.ok " NINGUNO ")).2.2 " NINGUNO " rfl
     (Or.inl (by decide)),
   by decide,
   (c10_simple_memory_extract _).2.1⟩

end Minerva
